import Mathlib

/-!
Shallow embedding of the time-windowed traffic aggregation engine of
`src/map.js` (bikewatching).

The embedding follows the source closely:

* A JavaScript `Date` obtained from a parseable timestamp always reports
  `getHours() ∈ [0,23]` and `getMinutes() ∈ [0,59]`; we model a valid parsed
  date as a pair of `Fin` values.  `new Date(badString)` yields an *Invalid
  Date* whose getters return `NaN`; we model the outcome of `new Date` as an
  `Option Date` (`none` = Invalid Date).
* The two global 1440-slot bucket arrays (`departuresByMinute`,
  `arrivalsByMinute`, line 33 f.) are `List (List Trip)` values passed
  explicitly.
* `d3.csv`'s row-conversion callback (lines 156-168) pushes each row into
  both bucket arrays.  With an invalid date, `minutesSinceMidnight` is `NaN`,
  `buckets[NaN]` is `undefined`, and `.push` throws a `TypeError` that aborts
  the whole parse; `ingest` models this with an explicit success flag and
  stops at the first failing row, keeping whatever had been pushed before.
* `d3.rollup(trips, v => v.length, key)` (lines 80-90) is modelled as an
  association list of (key, count) built in first-occurrence order
  (`rollupCounts`), with `Map.get` as `mapGet` and `?? 0` as `Option.getD 0`.
* `computeStationTraffic` (lines 78-100) assigns the three traffic fields on
  the very station objects of the canonical array and returns `stations.map`
  of those same objects.  The pure list-level reading is
  `computeStationTraffic`; the object-identity (heap) reading used by the
  frame-effect claims is `computeStationTrafficHeap`, where station objects
  live in a heap addressed by `Ref`s and the canonical array is a list of
  `Ref`s.
* `d3.scaleSqrt` with domain `[d0, d1]` and range `[r0, r1]` maps
  `x ↦ r0 + (√x − √d0) / (√d1 − √d0) · (r1 − r0)`; `SqrtScale` models the
  scale object, `updateRadiusRange` the range-only update on line 239.
-/

namespace Bikewatching

/-- A valid parsed date-time, reduced to the fields the program reads:
`getHours()` and `getMinutes()`. -/
structure Date where
  hours : Fin 24
  minutes : Fin 60
deriving DecidableEq

/-- A trip row after the `d3.csv` row conversion assigned `started_at` and
`ended_at`.  `none` models an Invalid Date produced from an unparseable
timestamp string. -/
structure Trip where
  start_station_id : String
  end_station_id : String
  started_at : Option Date
  ended_at : Option Date
deriving DecidableEq

/-- A station object: the canonical identity fields from the loaded JSON plus
the three traffic fields that `computeStationTraffic` writes.  The traffic
fields are `Option`s because a freshly loaded station object does not have
them yet. -/
structure Station where
  short_name : String
  lon : ℚ
  lat : ℚ
  arrivals : Option ℕ
  departures : Option ℕ
  totalTraffic : Option ℕ
deriving DecidableEq, Inhabited

/-- Source, lines 47-49: `date.getHours() * 60 + date.getMinutes()`. -/
def minutesSinceMidnight (date : Date) : ℕ :=
  date.hours.val * 60 + date.minutes.val

/-- Source, line 33 f.: `Array.from(\x7b length: 1440 \x7d, () => [])`. -/
def initialBuckets : List (List Trip) :=
  List.replicate 1440 []

/-- Model of `buckets[m].push(t)` on an in-range slot: replace slot `m` by
the slot with `t` appended. -/
def pushAt (buckets : List (List Trip)) (m : ℕ) (t : Trip) : List (List Trip) :=
  buckets.set m (buckets.getD m [] ++ [t])

/-- Source, lines 154-169: the `d3.csv` row conversion, run over the rows in
order.  Each row gets its start minute computed and is pushed into the
departure bucket, then its end minute computed and pushed into the arrival
bucket.  An Invalid Date makes the corresponding bucket index `NaN`, so the
`.push` throws and the whole parse aborts: the flag in the result is `false`
and no later row is processed, but earlier pushes remain. -/
def ingest : List Trip → List (List Trip) → List (List Trip) →
    List (List Trip) × List (List Trip) × Bool
  | [], dep, arr => (dep, arr, true)
  | row :: rest, dep, arr =>
    match row.started_at with
    | none => (dep, arr, false)
    | some sd =>
      let dep' := pushAt dep (minutesSinceMidnight sd) row
      match row.ended_at with
      | none => (dep', arr, false)
      | some ed => ingest rest dep' (pushAt arr (minutesSinceMidnight ed) row)

/-- Source, lines 58-75: `filterByMinute`.  `slice(a, b)` is
`(drop a).take (b − a)`, `slice(a)` is `drop a`, `slice(0, b)` is `take b`,
and `.flat()` is `flatten`. -/
def filterByMinute (tripsByMinute : List (List Trip)) (minute : Int) : List Trip :=
  if minute = -1 then
    tripsByMinute.flatten
  else
    let minMinute := ((minute - 60 + 1440) % 1440).toNat
    let maxMinute := ((minute + 60) % 1440).toNat
    if minMinute > maxMinute then
      (tripsByMinute.drop minMinute ++ tripsByMinute.take maxMinute).flatten
    else
      ((tripsByMinute.drop minMinute).take (maxMinute - minMinute)).flatten

/-- One step of `d3.rollup` counting: increment the count stored under key
`k`, inserting the key at the end on first occurrence. -/
def bump (m : List (String × ℕ)) (k : String) : List (String × ℕ) :=
  match m with
  | [] => [(k, 1)]
  | (k', n) :: rest => if k' = k then (k', n + 1) :: rest else (k', n) :: bump rest k

/-- Model of `d3.rollup(trips, v => v.length, key)`: a map from key to group
size, in first-occurrence order. -/
def rollupCounts (trips : List Trip) (key : Trip → String) : List (String × ℕ) :=
  trips.foldl (fun m t => bump m (key t)) []

/-- Model of `Map.get`: `some` count if present, `none` (JS `undefined`)
otherwise. -/
def mapGet (m : List (String × ℕ)) (k : String) : Option ℕ :=
  (m.find? (fun e => e.1 == k)).map (fun e => e.2)

/-- Source, lines 93-99: the body of the `stations.map` callback.  It reads
`station.short_name`, looks both counts up with `?? 0`, and writes
`arrivals`, `departures` and `totalTraffic` onto the station object. -/
def updateStation (departures arrivals : List (String × ℕ)) (station : Station) : Station :=
  let id := station.short_name
  let a := (mapGet arrivals id).getD 0
  let d := (mapGet departures id).getD 0
  { station with arrivals := some a, departures := some d, totalTraffic := some (a + d) }

/-- Source, lines 78-100: `computeStationTraffic`, value-level reading.  The
two global bucket arrays are passed explicitly. -/
def computeStationTraffic (departuresByMinute arrivalsByMinute : List (List Trip))
    (stations : List Station) (timeFilter : Int := -1) : List Station :=
  let departures := rollupCounts (filterByMinute departuresByMinute timeFilter)
    (fun t => t.start_station_id)
  let arrivals := rollupCounts (filterByMinute arrivalsByMinute timeFilter)
    (fun t => t.end_station_id)
  stations.map (updateStation departures arrivals)

/-- A reference to a station object: its address in a heap of station
objects. -/
abbrev Ref := ℕ

/-- Source, lines 78-100, object-identity reading.  The canonical stations
array is a list of references into `heap`; the `stations.map` callback
assigns the three traffic fields *on the referenced object itself* and
returns the same reference, so the call returns a fresh array holding the
original references, and the heap has every referenced object updated in
place. -/
def computeStationTrafficHeap (departuresByMinute arrivalsByMinute : List (List Trip))
    (timeFilter : Int) (heap : List Station) (refs : List Ref) :
    List Station × List Ref :=
  let departures := rollupCounts (filterByMinute departuresByMinute timeFilter)
    (fun t => t.start_station_id)
  let arrivals := rollupCounts (filterByMinute arrivalsByMinute timeFilter)
    (fun t => t.end_station_id)
  (refs.foldl (fun h r => h.set r (updateStation departures arrivals (h.getD r default))) heap,
    refs)

/-- Source, lines 196-199 and 249-252:
`d.totalTraffic > 0 ? d.departures / d.totalTraffic : 0.5`. -/
def flowRatioValue (departures totalTraffic : ℕ) : ℚ :=
  if 0 < totalTraffic then (departures : ℚ) / (totalTraffic : ℚ) else 1 / 2

/-- A `d3.scaleSqrt` object: domain `[d0, d1]`, range `[r0, r1]`. -/
structure SqrtScale where
  d0 : ℝ
  d1 : ℝ
  r0 : ℝ
  r1 : ℝ

/-- The `d3.scaleSqrt` interpolation:
`x ↦ r0 + (√x − √d0) / (√d1 − √d0) · (r1 − r0)`. -/
noncomputable def SqrtScale.apply (s : SqrtScale) (x : ℝ) : ℝ :=
  s.r0 + (Real.sqrt x - Real.sqrt s.d0) / (Real.sqrt s.d1 - Real.sqrt s.d0) * (s.r1 - s.r0)

/-- Source, lines 178-181: `d3.scaleSqrt().domain([0, max]).range([0, 25])`. -/
def initialRadiusScale (domainMax : ℝ) : SqrtScale :=
  { d0 := 0, d1 := domainMax, r0 := 0, r1 := 25 }

/-- Source, line 239:
`timeFilter === -1 ? radiusScale.range([0, 25]) : radiusScale.range([3, 50])`
— only the range is touched, never the domain. -/
def updateRadiusRange (s : SqrtScale) (timeFilter : Int) : SqrtScale :=
  if timeFilter = -1 then { s with r0 := 0, r1 := 25 }
  else { s with r0 := 3, r1 := 50 }

/-- Source, line 180: `d3.max(stations, d => d.totalTraffic)` over the
unfiltered traffic computation (line 174). -/
def unfilteredDomainMax (departuresByMinute arrivalsByMinute : List (List Trip))
    (stations : List Station) : ℕ :=
  ((computeStationTraffic departuresByMinute arrivalsByMinute stations (-1)).map
    (fun s => s.totalTraffic.getD 0)).foldl max 0

/-- Comparison definition for the window query, written from the spec's
words rather than from the source: the 120 consecutive cyclic minute slots
starting at `lo = (filter − 60 + 1440) mod 1440`, slot
`hi ≡ lo + 120 ≡ filter + 60 (mod 1440)` excluded. -/
def specWindowSlots (tripsByMinute : List (List Trip)) (filter : Int) : List (List Trip) :=
  let lo := ((filter - 60 + 1440) % 1440).toNat
  (List.range 120).map (fun i => tripsByMinute.getD ((lo + i) % 1440) [])

/-- A freshly loaded canonical station object: no traffic fields yet. -/
def stationA : Station :=
  { short_name := "A", lon := 0, lat := 0, arrivals := none, departures := none,
    totalTraffic := none }

/-- A canonical station whose id matches no trip in the demo data. -/
def stationB : Station :=
  { short_name := "B", lon := 0, lat := 0, arrivals := none, departures := none,
    totalTraffic := none }

/-- A well-formed trip from station A back to station A. -/
def tripAA : Trip :=
  { start_station_id := "A", end_station_id := "A",
    started_at := some ⟨0, 5⟩, ended_at := some ⟨0, 10⟩ }

/-- A well-formed trip row. -/
def goodRow1 : Trip :=
  { start_station_id := "A", end_station_id := "B",
    started_at := some ⟨0, 5⟩, ended_at := some ⟨0, 10⟩ }

/-- A malformed trip row: the end timestamp did not parse, so `ended_at`
holds an Invalid Date. -/
def badRow : Trip :=
  { start_station_id := "C", end_station_id := "D",
    started_at := some ⟨1, 0⟩, ended_at := none }

/-- Another well-formed trip row, appearing after the malformed one. -/
def goodRow2 : Trip :=
  { start_station_id := "E", end_station_id := "F",
    started_at := some ⟨2, 0⟩, ended_at := some ⟨2, 30⟩ }

/-! Helper lemmas. -/

theorem getD_set_self {α : Type} (l : List α) (m : ℕ) (v d : α) (h : m < l.length) :
    (l.set m v).getD m d = v := by
  simp [List.getD, List.getElem?_set, h]

theorem getD_set_of_ne {α : Type} (l : List α) (m n : ℕ) (v d : α) (h : m ≠ n) :
    (l.set m v).getD n d = l.getD n d := by
  simp [List.getD, List.getElem?_set, h]

theorem mapGet_bump (m : List (String × ℕ)) (k k' : String) :
    mapGet (bump m k) k'
      = if k = k' then some ((mapGet m k').getD 0 + 1) else mapGet m k' := by
  induction m with
  | nil =>
    by_cases h : k = k'
    · subst h
      simp [bump, mapGet]
    · have hb : (k == k') = false := by simpa using h
      simp [bump, mapGet, List.find?, hb, h]
  | cons e rest ih =>
    obtain ⟨k₀, n₀⟩ := e
    simp only [bump]
    by_cases h0 : k₀ = k
    · subst h0
      rw [if_pos rfl]
      by_cases h : k₀ = k'
      · subst h
        simp [mapGet, List.find?]
      · have hb : (k₀ == k') = false := by simpa using h
        simp [mapGet, List.find?, hb, h]
    · rw [if_neg h0]
      by_cases h1 : k₀ = k'
      · subst h1
        have hk : ¬ (k = k₀) := fun he => h0 he.symm
        simp [mapGet, List.find?, hk]
      · have hb : (k₀ == k') = false := by simpa using h1
        simp only [mapGet, List.find?, hb]
        simpa [mapGet] using ih

theorem mapGet_foldl_bump (key : Trip → String) (trips : List Trip)
    (m : List (String × ℕ)) (k : String) :
    (mapGet (trips.foldl (fun acc t => bump acc (key t)) m) k).getD 0
      = (mapGet m k).getD 0 + trips.countP (fun t => key t == k) := by
  induction trips generalizing m with
  | nil => simp
  | cons t ts ih =>
    simp only [List.foldl_cons, List.countP_cons, ih, mapGet_bump]
    by_cases h : key t = k
    · simp [h]
      omega
    · simp [h]

theorem rollup_get (trips : List Trip) (key : Trip → String) (k : String) :
    (mapGet (rollupCounts trips key) k).getD 0 = trips.countP (fun t => key t == k) := by
  have := mapGet_foldl_bump key trips [] k
  simpa [rollupCounts, mapGet] using this

theorem length_pushAt (b : List (List Trip)) (m : ℕ) (t : Trip) :
    (pushAt b m t).length = b.length := by
  simp [pushAt]

theorem getD_pushAt (b : List (List Trip)) (m n : ℕ) (t : Trip) (h : m < b.length) :
    (pushAt b m t).getD n [] = if n = m then b.getD m [] ++ [t] else b.getD n [] := by
  by_cases hnm : n = m
  · subst hnm
    simp [pushAt, List.getD, List.getElem?_set, h]
  · have hmn : m ≠ n := fun he => hnm he.symm
    simp [pushAt, List.getD, List.getElem?_set, hmn, hnm]

theorem countP_flatten_pushAt (p : Trip → Bool) (b : List (List Trip)) (m : ℕ) (t : Trip)
    (h : m < b.length) :
    (pushAt b m t).flatten.countP p = b.flatten.countP p + (if p t then 1 else 0) := by
  induction b generalizing m with
  | nil => simp at h
  | cons x xs ih =>
    cases m with
    | zero =>
      simp [pushAt, List.set, List.countP_append, List.countP_cons]
      omega
    | succ m' =>
      have h' : m' < xs.length := by simpa using h
      have step : pushAt (x :: xs) (m' + 1) t = x :: pushAt xs m' t := by
        simp [pushAt, List.set, List.getD_cons_succ]
      rw [step]
      simp only [List.flatten_cons, List.countP_append, ih m' h']
      omega

theorem count_flatten_pushAt (x : Trip) (b : List (List Trip)) (m : ℕ) (t : Trip)
    (h : m < b.length) :
    (pushAt b m t).flatten.count x = b.flatten.count x + (if t = x then 1 else 0) := by
  have h1 := countP_flatten_pushAt (fun y => y == x) b m t h
  simpa [List.count, beq_iff_eq] using h1

theorem mem_flatten_pushAt (x : Trip) (b : List (List Trip)) (m : ℕ) (t : Trip)
    (h : m < b.length) :
    x ∈ (pushAt b m t).flatten ↔ x ∈ b.flatten ∨ x = t := by
  have h1 := count_flatten_pushAt x b m t h
  constructor
  · intro hx
    have hc := List.count_pos_iff.mpr hx
    rw [h1] at hc
    by_cases he : t = x
    · exact Or.inr he.symm
    · rw [if_neg he] at hc
      exact Or.inl (List.count_pos_iff.mp (by omega))
  · intro hx
    refine List.count_pos_iff.mp ?_
    rw [h1]
    rcases hx with hx | hx
    · have := List.count_pos_iff.mpr hx
      omega
    · subst hx
      simp

theorem flatten_replicate_nil (n : ℕ) :
    (List.replicate n ([] : List Trip)).flatten = [] := by
  induction n with
  | zero => simp
  | succ k ih => simp [List.replicate, ih]

theorem getD_replicate_nil (n m : ℕ) :
    (List.replicate n ([] : List Trip)).getD m [] = [] := by
  by_cases h : m < n
  · simp [List.getD, List.getElem?_replicate, h]
  · simp [List.getD, List.getElem?_replicate, h]

theorem initialBuckets_length : initialBuckets.length = 1440 := by
  unfold initialBuckets
  exact List.length_replicate ..

theorem minutesSinceMidnight_lt (d : Date) : minutesSinceMidnight d < 1440 := by
  have h1 := d.hours.isLt
  have h2 := d.minutes.isLt
  simp only [minutesSinceMidnight]
  omega

theorem ingest_wf (rows : List Trip) :
    ∀ dep arr : List (List Trip),
      (∀ r ∈ rows, r.started_at.isSome ∧ r.ended_at.isSome) →
      dep.length = 1440 → arr.length = 1440 →
      (ingest rows dep arr).2.2 = true ∧
      (ingest rows dep arr).1.length = 1440 ∧
      (ingest rows dep arr).2.1.length = 1440 ∧
      (∀ p : Trip → Bool,
        (ingest rows dep arr).1.flatten.countP p = dep.flatten.countP p + rows.countP p) ∧
      (∀ p : Trip → Bool,
        (ingest rows dep arr).2.1.flatten.countP p = arr.flatten.countP p + rows.countP p) ∧
      (∀ n : ℕ, ∀ x ∈ (ingest rows dep arr).1.getD n [],
        x ∈ dep.getD n [] ∨
          (x ∈ rows ∧ ∃ d, x.started_at = some d ∧ minutesSinceMidnight d = n)) ∧
      (∀ n : ℕ, ∀ x ∈ (ingest rows dep arr).2.1.getD n [],
        x ∈ arr.getD n [] ∨
          (x ∈ rows ∧ ∃ d, x.ended_at = some d ∧ minutesSinceMidnight d = n)) := by
  induction rows with
  | nil =>
    intro dep arr _ hd ha
    simp [ingest, hd, ha]
  | cons row rest ih =>
    intro dep arr hw hd ha
    obtain ⟨hs, he⟩ := hw row (by simp)
    obtain ⟨sd, hsd⟩ := Option.isSome_iff_exists.mp hs
    obtain ⟨ed, hed⟩ := Option.isSome_iff_exists.mp he
    have hmsd := minutesSinceMidnight_lt sd
    have hmed := minutesSinceMidnight_lt ed
    have hstep : ingest (row :: rest) dep arr
        = ingest rest (pushAt dep (minutesSinceMidnight sd) row)
            (pushAt arr (minutesSinceMidnight ed) row) := by
      simp [ingest, hsd, hed]
    have hd' : (pushAt dep (minutesSinceMidnight sd) row).length = 1440 := by
      rw [length_pushAt, hd]
    have ha' : (pushAt arr (minutesSinceMidnight ed) row).length = 1440 := by
      rw [length_pushAt, ha]
    have hw' : ∀ r ∈ rest, r.started_at.isSome ∧ r.ended_at.isSome :=
      fun r hr => hw r (by simp [hr])
    obtain ⟨i1, i2, i3, i4, i5, i6, i7⟩ := ih _ _ hw' hd' ha'
    rw [hstep]
    refine ⟨i1, i2, i3, ?_, ?_, ?_, ?_⟩
    · intro p
      rw [i4 p, countP_flatten_pushAt p dep _ row (by omega), List.countP_cons]
      omega
    · intro p
      rw [i5 p, countP_flatten_pushAt p arr _ row (by omega), List.countP_cons]
      omega
    · intro n x hx
      rcases i6 n x hx with hx' | hx'
      · rw [getD_pushAt dep _ n row (by omega)] at hx'
        by_cases hn : n = minutesSinceMidnight sd
        · rw [if_pos hn] at hx'
          rcases List.mem_append.mp hx' with h2 | h2
          · left
            rw [hn]
            exact h2
          · right
            have hxr : x = row := List.mem_singleton.mp h2
            subst hxr
            exact ⟨by simp, sd, hsd, hn.symm⟩
        · rw [if_neg hn] at hx'
          exact Or.inl hx'
      · exact Or.inr ⟨List.mem_cons_of_mem _ hx'.1, hx'.2⟩
    · intro n x hx
      rcases i7 n x hx with hx' | hx'
      · rw [getD_pushAt arr _ n row (by omega)] at hx'
        by_cases hn : n = minutesSinceMidnight ed
        · rw [if_pos hn] at hx'
          rcases List.mem_append.mp hx' with h2 | h2
          · left
            rw [hn]
            exact h2
          · right
            have hxr : x = row := List.mem_singleton.mp h2
            subst hxr
            exact ⟨by simp, ed, hed, hn.symm⟩
        · rw [if_neg hn] at hx'
          exact Or.inl hx'
      · exact Or.inr ⟨List.mem_cons_of_mem _ hx'.1, hx'.2⟩

theorem ingest_append_wf (pre : List Trip) :
    ∀ (rest : List Trip) (dep arr : List (List Trip)),
      (∀ r ∈ pre, r.started_at.isSome ∧ r.ended_at.isSome) →
      ingest (pre ++ rest) dep arr
        = ingest rest (ingest pre dep arr).1 (ingest pre dep arr).2.1 := by
  induction pre with
  | nil =>
    intro rest dep arr _
    simp [ingest]
  | cons row rows ih =>
    intro rest dep arr hw
    obtain ⟨hs, he⟩ := hw row (by simp)
    obtain ⟨sd, hsd⟩ := Option.isSome_iff_exists.mp hs
    obtain ⟨ed, hed⟩ := Option.isSome_iff_exists.mp he
    simp only [List.cons_append, ingest, hsd, hed]
    exact ih rest _ _ (fun r hr => hw r (by simp [hr]))

theorem sum_map_add {α : Type} (l : List α) (f g : α → ℕ) :
    (l.map (fun x => f x + g x)).sum = (l.map f).sum + (l.map g).sum := by
  induction l with
  | nil => simp
  | cons a l ih =>
    simp only [List.map_cons, List.sum_cons, ih]
    omega

theorem sum_ite_count (stations : List Station) (k : String) :
    (stations.map (fun s => if k == s.short_name then 1 else 0)).sum
      = (stations.map Station.short_name).count k := by
  induction stations with
  | nil => simp
  | cons s l ih =>
    simp only [List.map_cons, List.sum_cons, List.count_cons, ih]
    by_cases h : k = s.short_name
    · have h2 : (s.short_name == k) = true := by simp [h]
      have h3 : (k == s.short_name) = true := by simp [h]
      rw [h2, h3]
      simp
      omega
    · have h2 : (s.short_name == k) = false := by simpa using fun hh => h hh.symm
      have h3 : (k == s.short_name) = false := by simpa using h
      rw [h2, h3]
      simp

theorem sum_map_one {α : Type} (l : List α) (f : α → ℕ) (h : ∀ x ∈ l, f x = 1) :
    (l.map f).sum = l.length := by
  induction l with
  | nil => simp
  | cons a l ih =>
    simp [h a (by simp), ih (fun x hx => h x (by simp [hx]))]
    omega

theorem sum_countP_swap (ts : List Trip) (stations : List Station) (key : Trip → String) :
    (stations.map (fun s => ts.countP (fun t => key t == s.short_name))).sum
      = (ts.map (fun t => (stations.map Station.short_name).count (key t))).sum := by
  induction ts with
  | nil => simp
  | cons t ts ih =>
    simp only [List.countP_cons, List.map_cons, List.sum_cons]
    rw [sum_map_add, ih, sum_ite_count]
    omega

theorem drop_take_eq_range_map (l : List (List Trip)) (s k : ℕ) (h : s + k ≤ l.length) :
    (l.drop s).take k = (List.range k).map (fun i => l.getD (s + i) []) := by
  apply List.ext_getElem
  · simp
    omega
  · intro i h1 h2
    have hik : i < k := by
      simp at h2
      omega
    have hsl : s + i < l.length := by omega
    rw [List.getElem_take, List.getElem_drop, List.getElem_map, List.getElem_range,
      List.getD_eq_getElem l [] hsl]

theorem drop_eq_range_map (l : List (List Trip)) (s : ℕ) (h : s ≤ l.length) :
    l.drop s = (List.range (l.length - s)).map (fun i => l.getD (s + i) []) := by
  have h2 : (l.drop s).take (l.length - s) = l.drop s := by
    have h3 : (l.drop s).length = l.length - s := by simp
    rw [← h3, List.take_length]
  rw [← h2, drop_take_eq_range_map l s (l.length - s) (by omega)]

theorem take_eq_range_map (l : List (List Trip)) (k : ℕ) (h : k ≤ l.length) :
    l.take k = (List.range k).map (fun i => l.getD i []) := by
  have h2 := drop_take_eq_range_map l 0 k (by omega)
  simpa using h2

theorem window_eq_noWrap (l : List (List Trip)) (lo : ℕ) (hlen : l.length = 1440)
    (hlo : lo + 120 ≤ 1440) :
    (l.drop lo).take 120 = (List.range 120).map (fun i => l.getD ((lo + i) % 1440) []) := by
  rw [drop_take_eq_range_map l lo 120 (by omega)]
  apply List.map_congr_left
  intro i hi
  have hilt : i < 120 := List.mem_range.mp hi
  rw [Nat.mod_eq_of_lt (by omega)]

theorem window_eq_wrap (l : List (List Trip)) (lo hi : ℕ) (hlen : l.length = 1440)
    (hlo : lo < 1440) (hhi : hi < 1440) (hw : (1440 - lo) + hi = 120) :
    l.drop lo ++ l.take hi = (List.range 120).map (fun i => l.getD ((lo + i) % 1440) []) := by
  rw [← hw, List.range_add, List.map_append, List.map_map]
  congr 1
  · rw [drop_eq_range_map l lo (by omega), hlen]
    apply List.map_congr_left
    intro i hi'
    have hilt : i < 1440 - lo := List.mem_range.mp hi'
    rw [Nat.mod_eq_of_lt (by omega)]
  · rw [take_eq_range_map l hi (by omega)]
    apply List.map_congr_left
    intro i hi'
    have hilt : i < hi := List.mem_range.mp hi'
    have hmod : (lo + ((1440 - lo) + i)) % 1440 = i := by omega
    simp only [Function.comp]
    rw [hmod]

theorem length_foldl_set (g : Station → Station) (refs : List Ref) :
    ∀ heap : List Station,
      (refs.foldl (fun h r => h.set r (g (h.getD r default))) heap).length = heap.length := by
  induction refs with
  | nil => intro heap; rfl
  | cons r rs ih =>
    intro heap
    simp only [List.foldl_cons]
    rw [ih]
    simp

theorem foldl_set_getD_not_mem (g : Station → Station) (refs : List Ref) :
    ∀ (heap : List Station) (r : Ref), r ∉ refs →
      (refs.foldl (fun h x => h.set x (g (h.getD x default))) heap).getD r default
        = heap.getD r default := by
  induction refs with
  | nil => intro heap r _; rfl
  | cons x xs ih =>
    intro heap r h
    have hx : x ≠ r := fun he => h (by simp [he])
    have hr : r ∉ xs := fun hr => h (by simp [hr])
    simp only [List.foldl_cons]
    rw [ih _ r hr, getD_set_of_ne _ _ _ _ _ hx]

theorem foldl_set_getD_mem (g : Station → Station) (refs : List Ref) :
    ∀ (heap : List Station) (r : Ref), r ∈ refs → refs.Nodup → r < heap.length →
      (refs.foldl (fun h x => h.set x (g (h.getD x default))) heap).getD r default
        = g (heap.getD r default) := by
  induction refs with
  | nil =>
    intro heap r hmem _ _
    simp at hmem
  | cons x xs ih =>
    intro heap r hmem hnd hr
    simp only [List.foldl_cons]
    rcases List.mem_cons.mp hmem with he | hm
    · subst he
      have hnx : r ∉ xs := (List.nodup_cons.mp hnd).1
      rw [foldl_set_getD_not_mem g xs _ r hnx, getD_set_self _ _ _ _ hr]
    · have hne : x ≠ r := fun he => (List.nodup_cons.mp hnd).1 (by rw [he]; exact hm)
      rw [ih _ r hm (List.nodup_cons.mp hnd).2 (by simpa using hr),
        getD_set_of_ne _ _ _ _ _ hne]

theorem updateRadiusRange_domain (s : SqrtScale) (f : Int) :
    (updateRadiusRange s f).d0 = s.d0 ∧ (updateRadiusRange s f).d1 = s.d1 := by
  by_cases h : f = -1 <;> simp [updateRadiusRange, h]

theorem foldl_updateRadiusRange_domain (gs : List Int) :
    ∀ s : SqrtScale,
      (gs.foldl updateRadiusRange s).d0 = s.d0 ∧ (gs.foldl updateRadiusRange s).d1 = s.d1 := by
  induction gs with
  | nil => intro s; exact ⟨rfl, rfl⟩
  | cons g gs ih =>
    intro s
    have h := ih (updateRadiusRange s g)
    have h2 := updateRadiusRange_domain s g
    simp only [List.foldl_cons]
    exact ⟨h.1.trans h2.1, h.2.trans h2.2⟩

/-! Claim theorems. -/

/-- C3: running `computeStationTraffic` with filter `f1` and then running it
again with filter `f2` on the list it produced (which, in the JavaScript
program, is the same canonical array whose objects were mutated by the first
call) gives exactly the output of a single fresh call with `f2`: no residual
traffic values from the first call influence the second, and counts never
compound. -/
theorem c3_no_cross_call_interference (dep arr : List (List Trip))
    (stations : List Station) (f1 f2 : Int) :
    computeStationTraffic dep arr (computeStationTraffic dep arr stations f1) f2
      = computeStationTraffic dep arr stations f2 := by
  simp only [computeStationTraffic]
  rw [List.map_map]
  apply List.map_congr_left
  intro s _
  rfl

/-- C8: the flow-ratio computation returns `departures / totalTraffic` when
`totalTraffic > 0` and the neutral value `1/2` when `totalTraffic = 0`; the
division-by-zero branch is guarded, and whenever `departures ≤ totalTraffic`
the result lies in `[0, 1]`. -/
theorem c8_flow_ratio_guard (d t : ℕ) :
    (t = 0 → flowRatioValue d t = 1 / 2) ∧
    (0 < t → flowRatioValue d t = (d : ℚ) / (t : ℚ)) ∧
    (d ≤ t → 0 ≤ flowRatioValue d t ∧ flowRatioValue d t ≤ 1) := by
  refine ⟨?_, ?_, ?_⟩
  · intro h
    simp [flowRatioValue, h]
  · intro h
    simp [flowRatioValue, h]
  · intro hdt
    by_cases h : 0 < t
    · have ht : (0 : ℚ) < t := by exact_mod_cast h
      constructor
      · simp only [flowRatioValue, if_pos h]
        positivity
      · simp only [flowRatioValue, if_pos h]
        rw [div_le_one ht]
        exact_mod_cast hdt
    · have h0 : t = 0 := by omega
      subst h0
      norm_num [flowRatioValue]

theorem c8_flow_ratio_guard_witness :
    flowRatioValue 3 0 = 1 / 2 ∧ flowRatioValue 1 2 = (1 : ℚ) / 2 := by
  constructor
  · exact (c8_flow_ratio_guard 3 0).1 rfl
  · have h := (c8_flow_ratio_guard 1 2).2.1 (by norm_num)
    simpa using h

/-- C4: `computeStationTraffic` produces one record per canonical station, in
input order; at every index, `departures` is the number of windowed trips
whose start station id equals the station's id (0 if none), `arrivals` the
number of windowed trips whose end station id equals it, and `totalTraffic`
their sum, with the identity fields untouched. -/
theorem c4_per_station_counts (dep arr : List (List Trip)) (stations : List Station)
    (f : Int) (i : ℕ) (hi : i < stations.length) :
    (computeStationTraffic dep arr stations f).length = stations.length ∧
    ((computeStationTraffic dep arr stations f).getD i default).short_name
        = (stations.getD i default).short_name ∧
    ((computeStationTraffic dep arr stations f).getD i default).lon
        = (stations.getD i default).lon ∧
    ((computeStationTraffic dep arr stations f).getD i default).lat
        = (stations.getD i default).lat ∧
    ((computeStationTraffic dep arr stations f).getD i default).departures
        = some ((filterByMinute dep f).countP
            (fun t => t.start_station_id == (stations.getD i default).short_name)) ∧
    ((computeStationTraffic dep arr stations f).getD i default).arrivals
        = some ((filterByMinute arr f).countP
            (fun t => t.end_station_id == (stations.getD i default).short_name)) ∧
    ((computeStationTraffic dep arr stations f).getD i default).totalTraffic
        = some ((filterByMinute arr f).countP
              (fun t => t.end_station_id == (stations.getD i default).short_name)
            + (filterByMinute dep f).countP
              (fun t => t.start_station_id == (stations.getD i default).short_name)) := by
  have hlen : (computeStationTraffic dep arr stations f).length = stations.length := by
    simp [computeStationTraffic]
  have hi' : i < (computeStationTraffic dep arr stations f).length := by omega
  have hget : (computeStationTraffic dep arr stations f).getD i default
      = updateStation (rollupCounts (filterByMinute dep f) (fun t => t.start_station_id))
          (rollupCounts (filterByMinute arr f) (fun t => t.end_station_id))
          (stations.getD i default) := by
    rw [List.getD_eq_getElem _ default hi']
    simp only [computeStationTraffic] at hi' ⊢
    rw [List.getElem_map, ← List.getD_eq_getElem stations default hi]
  refine ⟨hlen, ?_, ?_, ?_, ?_, ?_, ?_⟩ <;>
    rw [hget] <;>
    simp [updateStation, rollup_get]

theorem c4_per_station_counts_witness :
    (computeStationTraffic [[tripAA]] [[tripAA]] [stationA] (-1)).length = 1 ∧
    ((computeStationTraffic [[tripAA]] [[tripAA]] [stationA] (-1)).getD 0 default).departures
      = some 1 := by
  have h := c4_per_station_counts [[tripAA]] [[tripAA]] [stationA] (-1) 0 (by norm_num)
  refine ⟨h.1, ?_⟩
  rw [h.2.2.2.2.1]
  norm_num [filterByMinute, tripAA, stationA]

/-- C2: for every filter `f` in `[0, 1439]`, `filterByMinute` returns exactly
the concatenation of the 120 consecutive cyclic minute slots of the half-open
window `[lo, hi)` with `lo = (f − 60 + 1440) mod 1440` and
`hi = (f + 60) mod 1440` (slot `hi` excluded; for `lo > hi` the slots are
`[lo, 1440)` followed by `[0, hi)`).  In particular for `f = 30` the window
is `[1410, 1439] ∪ [0, 90)`: a trip bucketed at minute 1430 and one at
minute 50 both appear in the result, and every trip in the result comes from
a slot in the window, so a trip bucketed only at minute 200 does not. -/
theorem c2_query_window (tripsByMinute : List (List Trip)) (f : Int)
    (hlen : tripsByMinute.length = 1440) (h0 : 0 ≤ f) (h1 : f ≤ 1439) :
    filterByMinute tripsByMinute f = (specWindowSlots tripsByMinute f).flatten ∧
    (∀ t : Trip, t ∈ tripsByMinute.getD 1430 [] → t ∈ filterByMinute tripsByMinute 30) ∧
    (∀ t : Trip, t ∈ tripsByMinute.getD 50 [] → t ∈ filterByMinute tripsByMinute 30) ∧
    (∀ t : Trip, t ∈ filterByMinute tripsByMinute 30 →
      ∃ m : ℕ, ((1410 ≤ m ∧ m ≤ 1439) ∨ m < 90) ∧ t ∈ tripsByMinute.getD m []) := by
  have hne : ¬ (f = -1) := by omega
  have window30 : filterByMinute tripsByMinute 30
      = (tripsByMinute.drop 1410 ++ tripsByMinute.take 90).flatten := by
    have hne30 : ¬ ((30 : Int) = -1) := by norm_num
    simp only [filterByMinute, if_neg hne30]
    have hL : (((30 : Int) - 60 + 1440) % 1440).toNat = 1410 := by omega
    have hH : (((30 : Int) + 60) % 1440).toNat = 90 := by omega
    rw [hL, hH, if_pos (by omega)]
  refine ⟨?_, ?_, ?_, ?_⟩
  · simp only [filterByMinute, specWindowSlots, if_neg hne]
    rcases (by omega :
        (60 ≤ f ∧ f ≤ 1379) ∨ (0 ≤ f ∧ f ≤ 59) ∨ (1380 ≤ f ∧ f ≤ 1439)) with
      ⟨ha, hb⟩ | ⟨ha, hb⟩ | ⟨ha, hb⟩
    · have hL : ((f - 60 + 1440) % 1440).toNat = f.toNat - 60 := by omega
      have hH : ((f + 60) % 1440).toNat = f.toNat + 60 := by omega
      rw [hL, hH, if_neg (by omega)]
      have h120 : f.toNat + 60 - (f.toNat - 60) = 120 := by omega
      rw [h120]
      exact congrArg List.flatten
        (window_eq_noWrap tripsByMinute (f.toNat - 60) hlen (by omega))
    · have hL : ((f - 60 + 1440) % 1440).toNat = f.toNat + 1380 := by omega
      have hH : ((f + 60) % 1440).toNat = f.toNat + 60 := by omega
      rw [hL, hH, if_pos (by omega)]
      exact congrArg List.flatten
        (window_eq_wrap tripsByMinute (f.toNat + 1380) (f.toNat + 60) hlen
          (by omega) (by omega) (by omega))
    · have hL : ((f - 60 + 1440) % 1440).toNat = f.toNat - 60 := by omega
      have hH : ((f + 60) % 1440).toNat = f.toNat - 1380 := by omega
      rw [hL, hH, if_pos (by omega)]
      exact congrArg List.flatten
        (window_eq_wrap tripsByMinute (f.toNat - 60) (f.toNat - 1380) hlen
          (by omega) (by omega) (by omega))
  · intro t ht
    rw [window30]
    refine List.mem_flatten.mpr ⟨tripsByMinute.getD 1430 [], ?_, ht⟩
    refine List.mem_append.mpr (Or.inl ?_)
    have h20 : (20 : ℕ) < (tripsByMinute.drop 1410).length := by
      simp [hlen]
    refine List.mem_iff_getElem.mpr ⟨20, h20, ?_⟩
    rw [List.getElem_drop, List.getD_eq_getElem _ _ (by omega : (1430 : ℕ) < tripsByMinute.length)]
  · intro t ht
    rw [window30]
    refine List.mem_flatten.mpr ⟨tripsByMinute.getD 50 [], ?_, ht⟩
    refine List.mem_append.mpr (Or.inr ?_)
    have h50 : (50 : ℕ) < (tripsByMinute.take 90).length := by
      simp [hlen]
    refine List.mem_iff_getElem.mpr ⟨50, h50, ?_⟩
    rw [List.getElem_take, List.getD_eq_getElem _ _ (by omega : (50 : ℕ) < tripsByMinute.length)]
  · intro t ht
    rw [window30] at ht
    obtain ⟨s, hs, hts⟩ := List.mem_flatten.mp ht
    rcases List.mem_append.mp hs with hs' | hs'
    · obtain ⟨i, hi, hsi⟩ := List.mem_iff_getElem.mp hs'
      have hi' : i < 30 := by
        simp [hlen] at hi
        omega
      refine ⟨1410 + i, Or.inl ⟨by omega, by omega⟩, ?_⟩
      rw [List.getElem_drop] at hsi
      rw [List.getD_eq_getElem _ _ (by omega : 1410 + i < tripsByMinute.length), hsi]
      exact hts
    · obtain ⟨i, hi, hsi⟩ := List.mem_iff_getElem.mp hs'
      have hi' : i < 90 := by
        simp [hlen] at hi
        omega
      refine ⟨i, Or.inr hi', ?_⟩
      rw [List.getElem_take] at hsi
      rw [List.getD_eq_getElem _ _ (by omega : i < tripsByMinute.length), hsi]
      exact hts

theorem c2_query_window_witness :
    filterByMinute initialBuckets 30 = (specWindowSlots initialBuckets 30).flatten := by
  have h := c2_query_window initialBuckets 30 initialBuckets_length (by norm_num)
    (by norm_num)
  exact h.1

/-- C5: for every batch of well-formed trip rows, ingestion puts each trip in
exactly one slot of each bucket array — the slot of its start (resp. end)
time's minutes-since-midnight, computed as `hour * 60 + minute` — so the sum
over all 1440 slots of the slot sizes equals the total trip count, for both
`departuresByMinute` and `arrivalsByMinute`. -/
theorem c5_bucket_completeness (rows : List Trip)
    (hw : ∀ r ∈ rows, r.started_at.isSome ∧ r.ended_at.isSome) :
    ((ingest rows initialBuckets initialBuckets).1.map List.length).sum = rows.length ∧
    ((ingest rows initialBuckets initialBuckets).2.1.map List.length).sum = rows.length ∧
    (∀ n : ℕ, ∀ x ∈ (ingest rows initialBuckets initialBuckets).1.getD n [],
      x ∈ rows ∧ ∃ d, x.started_at = some d ∧ minutesSinceMidnight d = n) ∧
    (∀ n : ℕ, ∀ x ∈ (ingest rows initialBuckets initialBuckets).2.1.getD n [],
      x ∈ rows ∧ ∃ d, x.ended_at = some d ∧ minutesSinceMidnight d = n) := by
  obtain ⟨_, _, _, h4, h5, h6, h7⟩ :=
    ingest_wf rows initialBuckets initialBuckets hw initialBuckets_length initialBuckets_length
  have hinit : initialBuckets.flatten = ([] : List Trip) := flatten_replicate_nil 1440
  have hinitD : ∀ n : ℕ, initialBuckets.getD n [] = [] := fun n => getD_replicate_nil 1440 n
  refine ⟨?_, ?_, ?_, ?_⟩
  · have hc := h4 (fun _ => true)
    rw [hinit] at hc
    simp only [List.countP_true] at hc
    rw [← List.length_flatten]
    simpa using hc
  · have hc := h5 (fun _ => true)
    rw [hinit] at hc
    simp only [List.countP_true] at hc
    rw [← List.length_flatten]
    simpa using hc
  · intro n x hx
    rcases h6 n x hx with hx' | hx'
    · rw [hinitD n] at hx'
      simp at hx'
    · exact hx'
  · intro n x hx
    rcases h7 n x hx with hx' | hx'
    · rw [hinitD n] at hx'
      simp at hx'
    · exact hx'

theorem c5_bucket_completeness_witness :
    ((ingest [goodRow1] initialBuckets initialBuckets).1.map List.length).sum = 1 := by
  have hw : ∀ r ∈ [goodRow1], r.started_at.isSome ∧ r.ended_at.isSome := by
    intro r hr
    rw [List.mem_singleton] at hr
    subst hr
    exact ⟨rfl, rfl⟩
  have h := c5_bucket_completeness [goodRow1] hw
  simpa using h.1

/-- C6 counterexample: the conservation equation fails when a trip references
a station id absent from the canonical list.  With one trip from and to
station id "A" but a canonical list containing only a station with id "B",
the summed `totalTraffic` is 0, not `2 * 1`. -/
theorem c6_counterexample :
    ((computeStationTraffic (ingest [tripAA] initialBuckets initialBuckets).1
        (ingest [tripAA] initialBuckets initialBuckets).2.1 [stationB] (-1)).map
      (fun s => s.totalTraffic.getD 0)).sum ≠ 2 * [tripAA].length := by
  have hw : ∀ r ∈ [tripAA], r.started_at.isSome ∧ r.ended_at.isSome := by
    intro r hr
    rw [List.mem_singleton] at hr
    subst hr
    exact ⟨rfl, rfl⟩
  obtain ⟨_, _, _, h4, h5, _, _⟩ :=
    ingest_wf [tripAA] initialBuckets initialBuckets hw initialBuckets_length
      initialBuckets_length
  have hinit : initialBuckets.flatten = ([] : List Trip) := flatten_replicate_nil 1440
  have hdep := h4 (fun t => t.start_station_id == "B")
  have harr := h5 (fun t => t.end_station_id == "B")
  rw [hinit] at hdep harr
  have e1 : List.countP (fun t => t.start_station_id == "B") ([] : List Trip) = 0 := rfl
  have e2 : List.countP (fun t => t.end_station_id == "B") ([] : List Trip) = 0 := rfl
  have e3 : [tripAA].countP (fun t => t.start_station_id == "B") = 0 := by decide
  have e4 : [tripAA].countP (fun t => t.end_station_id == "B") = 0 := by decide
  rw [e1, e3] at hdep
  rw [e2, e4] at harr
  have hmap : (computeStationTraffic (ingest [tripAA] initialBuckets initialBuckets).1
        (ingest [tripAA] initialBuckets initialBuckets).2.1 [stationB] (-1)).map
          (fun s => s.totalTraffic.getD 0)
      = [(ingest [tripAA] initialBuckets initialBuckets).2.1.flatten.countP
            (fun t => t.end_station_id == "B")
          + (ingest [tripAA] initialBuckets initialBuckets).1.flatten.countP
            (fun t => t.start_station_id == "B")] := by
    simp [computeStationTraffic, updateStation, rollup_get, filterByMinute, stationB]
  rw [hmap]
  simp only [List.sum_cons, List.sum_nil, List.length_singleton]
  omega

/-- C6 (amended): the conservation law holds provided every ingested trip's
start and end station ids each match exactly one canonical station: with
filter NONE, the summed `totalTraffic` over the output equals twice the trip
count (each trip contributes one departure and one arrival). -/
theorem c6_traffic_conservation (rows : List Trip) (stations : List Station)
    (hw : ∀ r ∈ rows, r.started_at.isSome ∧ r.ended_at.isSome)
    (hs : ∀ r ∈ rows,
      (stations.map Station.short_name).count r.start_station_id = 1 ∧
      (stations.map Station.short_name).count r.end_station_id = 1) :
    ((computeStationTraffic (ingest rows initialBuckets initialBuckets).1
        (ingest rows initialBuckets initialBuckets).2.1 stations (-1)).map
      (fun s => s.totalTraffic.getD 0)).sum = 2 * rows.length := by
  obtain ⟨_, _, _, h4, h5, _, _⟩ :=
    ingest_wf rows initialBuckets initialBuckets hw initialBuckets_length initialBuckets_length
  have hinit : initialBuckets.flatten = ([] : List Trip) := flatten_replicate_nil 1440
  have hdep : ∀ p : Trip → Bool,
      (ingest rows initialBuckets initialBuckets).1.flatten.countP p = rows.countP p := by
    intro p
    have hc := h4 p
    rw [hinit] at hc
    simpa using hc
  have harr : ∀ p : Trip → Bool,
      (ingest rows initialBuckets initialBuckets).2.1.flatten.countP p = rows.countP p := by
    intro p
    have hc := h5 p
    rw [hinit] at hc
    simpa using hc
  have hmem_dep : ∀ t, t ∈ (ingest rows initialBuckets initialBuckets).1.flatten → t ∈ rows := by
    intro t ht
    have hpos : 0 < (ingest rows initialBuckets initialBuckets).1.flatten.count t :=
      List.count_pos_iff.mpr ht
    have he : (ingest rows initialBuckets initialBuckets).1.flatten.count t = rows.count t := by
      simpa [List.count] using hdep (fun y => y == t)
    exact List.count_pos_iff.mp (by omega)
  have hmem_arr : ∀ t, t ∈ (ingest rows initialBuckets initialBuckets).2.1.flatten → t ∈ rows := by
    intro t ht
    have hpos : 0 < (ingest rows initialBuckets initialBuckets).2.1.flatten.count t :=
      List.count_pos_iff.mpr ht
    have he : (ingest rows initialBuckets initialBuckets).2.1.flatten.count t = rows.count t := by
      simpa [List.count] using harr (fun y => y == t)
    exact List.count_pos_iff.mp (by omega)
  have hmap : (computeStationTraffic (ingest rows initialBuckets initialBuckets).1
        (ingest rows initialBuckets initialBuckets).2.1 stations (-1)).map
          (fun s => s.totalTraffic.getD 0)
      = stations.map (fun s =>
          (ingest rows initialBuckets initialBuckets).2.1.flatten.countP
            (fun t => t.end_station_id == s.short_name)
          + (ingest rows initialBuckets initialBuckets).1.flatten.countP
            (fun t => t.start_station_id == s.short_name)) := by
    simp only [computeStationTraffic, List.map_map]
    apply List.map_congr_left
    intro s _
    simp [updateStation, rollup_get, filterByMinute]
  rw [hmap, sum_map_add]
  have harrsum : (stations.map (fun s =>
      (ingest rows initialBuckets initialBuckets).2.1.flatten.countP
        (fun t => t.end_station_id == s.short_name))).sum = rows.length := by
    have hone : ∀ t ∈ (ingest rows initialBuckets initialBuckets).2.1.flatten,
        (stations.map Station.short_name).count t.end_station_id = 1 :=
      fun t ht => (hs t (hmem_arr t ht)).2
    rw [sum_countP_swap _ stations (fun t => t.end_station_id), sum_map_one _ _ hone]
    have hc := harr (fun _ => true)
    simpa [List.countP_true] using hc
  have hdepsum : (stations.map (fun s =>
      (ingest rows initialBuckets initialBuckets).1.flatten.countP
        (fun t => t.start_station_id == s.short_name))).sum = rows.length := by
    have hone : ∀ t ∈ (ingest rows initialBuckets initialBuckets).1.flatten,
        (stations.map Station.short_name).count t.start_station_id = 1 :=
      fun t ht => (hs t (hmem_dep t ht)).1
    rw [sum_countP_swap _ stations (fun t => t.start_station_id), sum_map_one _ _ hone]
    have hc := hdep (fun _ => true)
    simpa [List.countP_true] using hc
  rw [harrsum, hdepsum]
  omega

theorem c6_traffic_conservation_witness :
    ((computeStationTraffic (ingest [tripAA] initialBuckets initialBuckets).1
        (ingest [tripAA] initialBuckets initialBuckets).2.1 [stationA] (-1)).map
      (fun s => s.totalTraffic.getD 0)).sum = 2 * [tripAA].length := by
  refine c6_traffic_conservation [tripAA] [stationA] ?_ ?_
  · intro r hr
    rw [List.mem_singleton] at hr
    subst hr
    exact ⟨rfl, rfl⟩
  · intro r hr
    rw [List.mem_singleton] at hr
    subst hr
    constructor <;> simp [tripAA, stationA]

/-- C7 counterexample: ingestion does not skip a malformed row and continue —
it aborts the batch at that row.  With rows `[goodRow1, badRow, goodRow2]`
(where `badRow`'s end timestamp does not parse), the ingest flag is `false`,
the later well-formed row `goodRow2` never reaches the departure buckets,
and the malformed `badRow` itself does: the buckets do not contain exactly
the well-formed rows. -/
theorem c7_counterexample :
    (ingest [goodRow1, badRow, goodRow2] initialBuckets initialBuckets).2.2 = false ∧
    goodRow2 ∉ (ingest [goodRow1, badRow, goodRow2] initialBuckets initialBuckets).1.flatten ∧
    badRow ∈ (ingest [goodRow1, badRow, goodRow2] initialBuckets initialBuckets).1.flatten := by
  have hpre : ∀ r ∈ [goodRow1], r.started_at.isSome ∧ r.ended_at.isSome := by
    intro r hr
    rw [List.mem_singleton] at hr
    subst hr
    exact ⟨rfl, rfl⟩
  have hl : [goodRow1, badRow, goodRow2] = [goodRow1] ++ [badRow, goodRow2] := rfl
  have happ :=
    ingest_append_wf [goodRow1] [badRow, goodRow2] initialBuckets initialBuckets hpre
  have hD : (ingest [goodRow1] initialBuckets initialBuckets).1
      = pushAt initialBuckets (minutesSinceMidnight ⟨0, 5⟩) goodRow1 := by
    simp [ingest, goodRow1]
  have hstep : ingest [badRow, goodRow2] (ingest [goodRow1] initialBuckets initialBuckets).1
        (ingest [goodRow1] initialBuckets initialBuckets).2.1
      = (pushAt (ingest [goodRow1] initialBuckets initialBuckets).1
          (minutesSinceMidnight ⟨1, 0⟩) badRow,
         (ingest [goodRow1] initialBuckets initialBuckets).2.1, false) := by
    simp [ingest, badRow]
  rw [hl, happ, hstep]
  have hlen1 : (pushAt initialBuckets (minutesSinceMidnight ⟨0, 5⟩) goodRow1).length = 1440 := by
    rw [length_pushAt, initialBuckets_length]
  have hmem : ∀ x : Trip,
      x ∈ (pushAt (ingest [goodRow1] initialBuckets initialBuckets).1
          (minutesSinceMidnight ⟨1, 0⟩) badRow).flatten ↔ (x = goodRow1 ∨ x = badRow) := by
    intro x
    rw [hD, mem_flatten_pushAt x _ _ _ (by rw [hlen1]; exact minutesSinceMidnight_lt _),
      mem_flatten_pushAt x _ _ _ (by rw [initialBuckets_length]; exact minutesSinceMidnight_lt _)]
    have hif : initialBuckets.flatten = ([] : List Trip) := flatten_replicate_nil 1440
    rw [hif]
    simp
  refine ⟨rfl, ?_, ?_⟩
  · rw [hmem]
    decide
  · rw [hmem]
    right
    rfl

/-- C7 (amended): a malformed row aborts ingestion rather than being skipped:
for any well-formed prefix, the first row with an unparseable timestamp —
start or end — stops the batch with the failure flag set and no later row is
ingested.  The arrival buckets are exactly those of the prefix; the
departure buckets are those of the prefix when the start timestamp did not
parse, and additionally hold the malformed row's own departure push when its
start timestamp did parse (and only the end one failed). -/
theorem c7_abort_on_malformed (pre : List Trip) (bad : Trip) (rest : List Trip)
    (hpre : ∀ r ∈ pre, r.started_at.isSome ∧ r.ended_at.isSome)
    (hbad : bad.started_at = none ∨ bad.ended_at = none) :
    (ingest (pre ++ bad :: rest) initialBuckets initialBuckets).2.2 = false ∧
    (ingest (pre ++ bad :: rest) initialBuckets initialBuckets).2.1
      = (ingest pre initialBuckets initialBuckets).2.1 ∧
    (bad.started_at = none →
      (ingest (pre ++ bad :: rest) initialBuckets initialBuckets).1
        = (ingest pre initialBuckets initialBuckets).1) ∧
    (∀ sd, bad.started_at = some sd →
      (ingest (pre ++ bad :: rest) initialBuckets initialBuckets).1
        = pushAt (ingest pre initialBuckets initialBuckets).1
            (minutesSinceMidnight sd) bad) := by
  rw [ingest_append_wf pre (bad :: rest) initialBuckets initialBuckets hpre]
  cases hsd : bad.started_at with
  | none => simp [ingest, hsd]
  | some sd =>
    have hbe : bad.ended_at = none := by
      rcases hbad with h | h
      · rw [hsd] at h
        exact absurd h (by simp)
      · exact h
    simp [ingest, hsd, hbe]

theorem c7_abort_on_malformed_witness :
    (ingest ([goodRow1] ++ badRow :: [goodRow2]) initialBuckets initialBuckets).2.2
      = false := by
  have hpre : ∀ r ∈ [goodRow1], r.started_at.isSome ∧ r.ended_at.isSome := by
    intro r hr
    rw [List.mem_singleton] at hr
    subst hr
    exact ⟨rfl, rfl⟩
  exact (c7_abort_on_malformed [goodRow1] badRow [goodRow2] hpre (Or.inr rfl)).1

/-- C9: the radius scale computes
`radius = r0 + sqrt(totalTraffic / domainMax) * (r1 − r0)` where `domainMax`
is the maximum `totalTraffic` over the unfiltered station set; the domain is
set once and never changed by any sequence of filter-driven range updates,
and the output range is `[0, 25]` exactly when the filter is NONE and
`[3, 50]` for every active filter in `[0, 1439]`. -/
theorem c9_radius_scale (dep arr : List (List Trip)) (stations : List Station)
    (t : ℝ) (f : Int)
    (_hd : 0 < ((unfilteredDomainMax dep arr stations : ℕ) : ℝ)) (ht : 0 ≤ t) :
    ((updateRadiusRange (initialRadiusScale
          ((unfilteredDomainMax dep arr stations : ℕ) : ℝ)) f).d0 = 0 ∧
      (updateRadiusRange (initialRadiusScale
          ((unfilteredDomainMax dep arr stations : ℕ) : ℝ)) f).d1
        = ((unfilteredDomainMax dep arr stations : ℕ) : ℝ)) ∧
    (∀ gs : List Int,
      (gs.foldl updateRadiusRange (initialRadiusScale
          ((unfilteredDomainMax dep arr stations : ℕ) : ℝ))).d0 = 0 ∧
      (gs.foldl updateRadiusRange (initialRadiusScale
          ((unfilteredDomainMax dep arr stations : ℕ) : ℝ))).d1
        = ((unfilteredDomainMax dep arr stations : ℕ) : ℝ)) ∧
    (f = -1 →
      (updateRadiusRange (initialRadiusScale
          ((unfilteredDomainMax dep arr stations : ℕ) : ℝ)) f).r0 = 0 ∧
      (updateRadiusRange (initialRadiusScale
          ((unfilteredDomainMax dep arr stations : ℕ) : ℝ)) f).r1 = 25) ∧
    (0 ≤ f → f ≤ 1439 →
      (updateRadiusRange (initialRadiusScale
          ((unfilteredDomainMax dep arr stations : ℕ) : ℝ)) f).r0 = 3 ∧
      (updateRadiusRange (initialRadiusScale
          ((unfilteredDomainMax dep arr stations : ℕ) : ℝ)) f).r1 = 50) ∧
    SqrtScale.apply (updateRadiusRange (initialRadiusScale
          ((unfilteredDomainMax dep arr stations : ℕ) : ℝ)) f) t
      = (updateRadiusRange (initialRadiusScale
          ((unfilteredDomainMax dep arr stations : ℕ) : ℝ)) f).r0
        + Real.sqrt (t / ((unfilteredDomainMax dep arr stations : ℕ) : ℝ))
          * ((updateRadiusRange (initialRadiusScale
              ((unfilteredDomainMax dep arr stations : ℕ) : ℝ)) f).r1
            - (updateRadiusRange (initialRadiusScale
              ((unfilteredDomainMax dep arr stations : ℕ) : ℝ)) f).r0) := by
  have hdom := updateRadiusRange_domain
    (initialRadiusScale ((unfilteredDomainMax dep arr stations : ℕ) : ℝ)) f
  have h1 : (updateRadiusRange (initialRadiusScale
      ((unfilteredDomainMax dep arr stations : ℕ) : ℝ)) f).d0 = 0 := by
    rw [hdom.1]
    rfl
  have h2 : (updateRadiusRange (initialRadiusScale
      ((unfilteredDomainMax dep arr stations : ℕ) : ℝ)) f).d1
      = ((unfilteredDomainMax dep arr stations : ℕ) : ℝ) := by
    rw [hdom.2]
    rfl
  refine ⟨⟨h1, h2⟩, ?_, ?_, ?_, ?_⟩
  · intro gs
    have h := foldl_updateRadiusRange_domain gs
      (initialRadiusScale ((unfilteredDomainMax dep arr stations : ℕ) : ℝ))
    exact ⟨by rw [h.1]; rfl, by rw [h.2]; rfl⟩
  · intro hf
    rw [hf]
    simp [updateRadiusRange]
  · intro hf0 hf1
    have hne : ¬ (f = -1) := by omega
    simp [updateRadiusRange, hne]
  · simp only [SqrtScale.apply]
    rw [h1, h2, Real.sqrt_zero, sub_zero, sub_zero, Real.sqrt_div ht]

theorem c9_radius_scale_witness :
    SqrtScale.apply (updateRadiusRange (initialRadiusScale
        ((unfilteredDomainMax [[tripAA]] [[tripAA]] [stationA] : ℕ) : ℝ)) (-1)) 2
      = (updateRadiusRange (initialRadiusScale
          ((unfilteredDomainMax [[tripAA]] [[tripAA]] [stationA] : ℕ) : ℝ)) (-1)).r0
        + Real.sqrt (2 / ((unfilteredDomainMax [[tripAA]] [[tripAA]] [stationA] : ℕ) : ℝ))
          * ((updateRadiusRange (initialRadiusScale
              ((unfilteredDomainMax [[tripAA]] [[tripAA]] [stationA] : ℕ) : ℝ)) (-1)).r1
            - (updateRadiusRange (initialRadiusScale
              ((unfilteredDomainMax [[tripAA]] [[tripAA]] [stationA] : ℕ) : ℝ)) (-1)).r0) := by
  have hval : unfilteredDomainMax [[tripAA]] [[tripAA]] [stationA] = 2 := by decide
  have hd : 0 < ((unfilteredDomainMax [[tripAA]] [[tripAA]] [stationA] : ℕ) : ℝ) := by
    rw [hval]
    norm_num
  exact (c9_radius_scale [[tripAA]] [[tripAA]] [stationA] 2 (-1) hd (by norm_num)).2.2.2.2

/-- C10: the array returned by `computeStationTraffic` aliases its input —
the returned reference array is exactly the input reference array (element i
reference-identical to input element i), the three traffic fields are
written in place on the referenced heap objects, and every call
unconditionally overwrites all three fields on every referenced station. -/
theorem c10_in_place_aliasing (dep arr : List (List Trip)) (f : Int)
    (heap : List Station) (refs : List Ref) (hnd : refs.Nodup)
    (hv : ∀ r ∈ refs, r < heap.length) :
    (computeStationTrafficHeap dep arr f heap refs).2 = refs ∧
    (computeStationTrafficHeap dep arr f heap refs).1.length = heap.length ∧
    ∀ r ∈ refs,
      (computeStationTrafficHeap dep arr f heap refs).1.getD r default
        = updateStation
            (rollupCounts (filterByMinute dep f) (fun t => t.start_station_id))
            (rollupCounts (filterByMinute arr f) (fun t => t.end_station_id))
            (heap.getD r default) ∧
      ((computeStationTrafficHeap dep arr f heap refs).1.getD r default).arrivals.isSome ∧
      ((computeStationTrafficHeap dep arr f heap refs).1.getD r default).departures.isSome ∧
      ((computeStationTrafficHeap dep arr f heap refs).1.getD r default).totalTraffic.isSome := by
  refine ⟨rfl, ?_, ?_⟩
  · simp only [computeStationTrafficHeap]
    exact length_foldl_set _ refs heap
  · intro r hr
    have hget : (computeStationTrafficHeap dep arr f heap refs).1.getD r default
        = updateStation
            (rollupCounts (filterByMinute dep f) (fun t => t.start_station_id))
            (rollupCounts (filterByMinute arr f) (fun t => t.end_station_id))
            (heap.getD r default) := by
      simp only [computeStationTrafficHeap]
      exact foldl_set_getD_mem _ refs heap r hr hnd (hv r hr)
    refine ⟨hget, ?_, ?_, ?_⟩ <;> rw [hget] <;> simp [updateStation]

theorem c10_in_place_aliasing_witness :
    (computeStationTrafficHeap [[tripAA]] [[tripAA]] (-1) [stationA] [0]).2 = [0] := by
  exact (c10_in_place_aliasing [[tripAA]] [[tripAA]] (-1) [stationA] [0]
    (by simp) (by simp)).1

/-- C1 counterexample: `computeStationTraffic` does mutate the canonical
station objects.  With an empty trip index, filter NONE and a single
canonical station that has no traffic fields yet, the heap after the call
differs from the heap before it: the station object now carries
`arrivals = departures = totalTraffic = some 0`. -/
theorem c1_counterexample :
    (computeStationTrafficHeap initialBuckets initialBuckets (-1) [stationA] [0]).1
      ≠ [stationA] := by
  intro h
  have h0 : (computeStationTrafficHeap initialBuckets initialBuckets (-1)
      [stationA] [0]).1.getD 0 default = stationA := by
    rw [h]
    rfl
  have hget : (computeStationTrafficHeap initialBuckets initialBuckets (-1)
      [stationA] [0]).1.getD 0 default
      = updateStation
          (rollupCounts (filterByMinute initialBuckets (-1)) (fun t => t.start_station_id))
          (rollupCounts (filterByMinute initialBuckets (-1)) (fun t => t.end_station_id))
          ([stationA].getD 0 default) := by
    simp only [computeStationTrafficHeap]
    exact foldl_set_getD_mem _ [0] [stationA] 0 (by simp) (by simp) (by simp)
  have hcontra := hget.symm.trans h0
  have harr := congrArg Station.arrivals hcontra
  simp [updateStation, stationA] at harr

/-- C1 (amended): `computeStationTraffic` writes the three traffic fields in
place on the canonical station objects (so the non-mutation half of the
claim fails), but the freshness half holds: the written values are computed
from the canonical trip buckets, the filter and the station's id alone —
never from previously written traffic values — and the identity fields are
untouched, so repeated computations never compound stale state. -/
theorem c1_recompute_from_canonical (dep arr : List (List Trip)) (f : Int)
    (heap : List Station) (refs : List Ref) (hnd : refs.Nodup)
    (hv : ∀ r ∈ refs, r < heap.length) (r : Ref) (hr : r ∈ refs) :
    ((computeStationTrafficHeap dep arr f heap refs).1.getD r default).short_name
        = (heap.getD r default).short_name ∧
    ((computeStationTrafficHeap dep arr f heap refs).1.getD r default).lon
        = (heap.getD r default).lon ∧
    ((computeStationTrafficHeap dep arr f heap refs).1.getD r default).lat
        = (heap.getD r default).lat ∧
    ((computeStationTrafficHeap dep arr f heap refs).1.getD r default).departures
        = some ((filterByMinute dep f).countP
            (fun t => t.start_station_id == (heap.getD r default).short_name)) ∧
    ((computeStationTrafficHeap dep arr f heap refs).1.getD r default).arrivals
        = some ((filterByMinute arr f).countP
            (fun t => t.end_station_id == (heap.getD r default).short_name)) ∧
    ((computeStationTrafficHeap dep arr f heap refs).1.getD r default).totalTraffic
        = some ((filterByMinute arr f).countP
              (fun t => t.end_station_id == (heap.getD r default).short_name)
            + (filterByMinute dep f).countP
              (fun t => t.start_station_id == (heap.getD r default).short_name)) := by
  have hget : (computeStationTrafficHeap dep arr f heap refs).1.getD r default
      = updateStation
          (rollupCounts (filterByMinute dep f) (fun t => t.start_station_id))
          (rollupCounts (filterByMinute arr f) (fun t => t.end_station_id))
          (heap.getD r default) := by
    simp only [computeStationTrafficHeap]
    exact foldl_set_getD_mem _ refs heap r hr hnd (hv r hr)
  refine ⟨?_, ?_, ?_, ?_, ?_, ?_⟩ <;>
    rw [hget] <;>
    simp [updateStation, rollup_get]

theorem c1_recompute_from_canonical_witness :
    ((computeStationTrafficHeap [[tripAA]] [[tripAA]] (-1) [stationA] [0]).1.getD 0
        default).short_name = ([stationA].getD 0 default).short_name := by
  exact (c1_recompute_from_canonical [[tripAA]] [[tripAA]] (-1) [stationA] [0]
    (by simp) (by simp) 0 (by simp)).1

end Bikewatching
